import Mathlib

/-!
Verification of the edit-suggestion state machine, undo history, response
classifier and orchestrator of the Travin Canvas application, shallowly
embedded from `src/components/canvas.py`, `src/components/chat.py` and
`src/main.py`.

Session state (`st.session_state`) is modelled as an explicit record
`AppState`; the `on_content_change` callback is modelled by recording every
invocation (with its argument) in a `notifications` list; exceptions raised
by the external LLM call or the research handler are modelled by passing the
outcome of the external call as an `Except String String` value.
-/

/-! ## Text helpers (Python string semantics on lists of characters) -/

/-- Python whitespace characters recognised by `str.strip()` (ASCII subset;
the repository only strips over ASCII text). -/
def isSpaceChar (c : Char) : Bool :=
  c = ' ' || c = Char.ofNat 9 || c = Char.ofNat 10 || c = Char.ofNat 13 ||
  c = Char.ofNat 11 || c = Char.ofNat 12

/-- Python `str.strip()`: remove leading and trailing whitespace. -/
def stripChars (s : List Char) : List Char :=
  ((s.dropWhile isSpaceChar).reverse.dropWhile isSpaceChar).reverse

/-- Python `str.strip()` on `String`. -/
def stripS (s : String) : String :=
  String.mk (stripChars s.data)

/-- Does `pat` match at the head of `hay`? (Python `hay.startswith(pat)`.) -/
def matchesHere : List Char → List Char → Bool
  | [], _ => true
  | _ :: _, [] => false
  | p :: ps, h :: hs => p = h && matchesHere ps hs

/-- Python `hay.find(pat)`: index of the first occurrence of `pat` in `hay`,
`none` standing for Python's `-1`. -/
def pyFindIdx (pat : List Char) : List Char → Option Nat
  | [] => if matchesHere pat [] then some 0 else none
  | h :: t =>
    if matchesHere pat (h :: t) then some 0
    else (pyFindIdx pat t).map (· + 1)

/-- The pattern `pat` occurs in `hay` at index `i`. -/
def occursAt (pat hay : List Char) (i : Nat) : Prop :=
  matchesHere pat (hay.drop i) = true

instance (pat hay : List Char) (i : Nat) : Decidable (occursAt pat hay i) := by
  unfold occursAt; infer_instance

/-- Python `s[n:]` (slicing by code point). -/
def dropS (s : String) (n : Nat) : String :=
  String.mk (s.data.drop n)

/-- Python `hay.startswith(pat)` on `String`. -/
def startsWithS (hay pat : String) : Bool :=
  matchesHere pat.data hay.data

/-- Apostrophe character (U+0027). -/
def apos : Char := Char.ofNat 39

/-- The literal marker phrase checked for in assistant responses
(`chat.py`, lines 172 and 481). -/
def marker : String :=
  "I" ++ String.mk [apos] ++ "ll update the document with:"

/-! ## Data model -/

/-- One chat turn of `st.session_state.chat_history` (`chat.py`). The
`has_edit` key, absent on most turns in the Python dict, is modelled as a
Bool that is `false` unless `process_user_input` sets it. -/
structure Turn where
  role : String
  content : String
  has_edit : Bool
deriving DecidableEq, Repr

/-- The per-session state of the application: the fields of
`st.session_state` that the edit-suggestion machine, undo history and
orchestrator read or write, plus a log of `on_content_change` invocations.
`canvas_registered` models whether `"markdown_canvas"` is a key of
`st.session_state` (set by `main.main`). -/
structure AppState where
  markdown_content : String
  undo_history : List String
  chat_history : List Turn
  pending_edit : Option String
  canvas_registered : Bool
  notifications : List String
deriving DecidableEq, Repr

/-! ## Document store and undo history (`canvas.py`) -/

/-- Truncation step of `_save_to_history` (`canvas.py`, lines 330-331):
when the history exceeds 10 entries it is cut back to its last 10
(`undo_history[-10:]`). -/
def truncHistory (h2 : List String) : List String :=
  if h2.length > 10 then h2.drop (h2.length - 10) else h2

/-- History push, translated from `MarkdownCanvas._save_to_history`
(`canvas.py`, lines 317-331): a no-op when the current content is empty
(Python truthiness of `st.session_state.markdown_content`) or equal to the
most recent entry; otherwise appends and keeps the last 10 entries. -/
def pushHistory (h : List String) (content : String) : List String :=
  if content = "" then h
  else if h = [] ∨ ¬ h.getLast? = some content then truncHistory (h ++ [content])
  else h

/-- `MarkdownCanvas._save_to_history` acting on the session state. -/
def saveToHistory (s : AppState) : AppState :=
  { s with undo_history := pushHistory s.undo_history s.markdown_content }

/-- `MarkdownCanvas.set_content` (`canvas.py`, lines 358-372): optionally
push the current content to history, replace the content, invoke
`on_content_change` with the new content. -/
def set_content (s : AppState) (content : String) (save_history : Bool) : AppState :=
  let s1 := if save_history then saveToHistory s else s
  { s1 with
    markdown_content := content,
    notifications := s1.notifications ++ [content] }

/-- `MarkdownCanvas._undo_last_change` (`canvas.py`, lines 333-347): if the
history is non-empty, pop its most recent entry, make it the content, and
invoke `on_content_change` with it. -/
def undoLastChange (s : AppState) : AppState :=
  match s.undo_history.getLast? with
  | none => s
  | some prev =>
    { s with
      undo_history := s.undo_history.dropLast,
      markdown_content := prev,
      notifications := s.notifications ++ [prev] }

/-- The "New" toolbar action (`canvas.py`, lines 100-105): save to history,
then clear the content. No `on_content_change` call on this path. -/
def newDocument (s : AppState) : AppState :=
  let s1 := saveToHistory s
  { s1 with markdown_content := "" }

/-- The file-upload path (`canvas.py`, lines 117-154): save to history, set
the extracted text as content, invoke `on_content_change`. -/
def loadDocument (s : AppState) (content : String) : AppState :=
  let s1 := saveToHistory s
  { s1 with
    markdown_content := content,
    notifications := s1.notifications ++ [content] }

/-- The direct-edit path of `MarkdownCanvas._render_editor` (`canvas.py`,
lines 279-284): when the text area differs from the stored content, save to
history, store it, invoke `on_content_change`. -/
def editorUpdate (s : AppState) (new_content : String) : AppState :=
  if new_content = s.markdown_content then s
  else
    let s1 := saveToHistory s
    { s1 with
      markdown_content := new_content,
      notifications := s1.notifications ++ [new_content] }

/-! ## Edit proposal tracker (`chat.py`) -/

/-- The confirmation turn appended by the Apply button. -/
def confirmTurn : Turn :=
  ⟨"system", "✅ Document has been updated successfully.", false⟩

/-- The cancellation turn appended by the Cancel button. -/
def cancelTurn : Turn :=
  ⟨"system", "❌ Document update was cancelled.", false⟩

/-- The Apply branch of `ChatInterface._render_edit_confirmation_buttons`
(`chat.py`, lines 235-248): when `"markdown_canvas"` is in the session
state, assign `pending_edit` directly to `markdown_content`, append the
confirmation turn, clear `pending_edit`. The button is only rendered while
a pending edit exists, so the `none` branch is unreachable and modelled as
a no-op. -/
def applyEdit (s : AppState) : AppState :=
  if s.canvas_registered then
    match s.pending_edit with
    | some e =>
      { s with
        markdown_content := e,
        chat_history := s.chat_history ++ [confirmTurn],
        pending_edit := none }
    | none => s
  else s

/-- The Cancel branch of `ChatInterface._render_edit_confirmation_buttons`
(`chat.py`, lines 250-260): append the cancellation turn and clear
`pending_edit`; the document is untouched. -/
def cancelEdit (s : AppState) : AppState :=
  { s with
    chat_history := s.chat_history ++ [cancelTurn],
    pending_edit := none }

/-! ## Response classifier (`chat.py`, `render`, lines 171-182) -/

/-- The classification performed by `ChatInterface.render` on an assistant
message: if the marker occurs in the text, the proposal content is
everything after its first occurrence, stripped; otherwise no proposal. -/
def classify (text : String) : Option String :=
  match pyFindIdx marker.data text.data with
  | none => none
  | some i => some (String.mk (stripChars (text.data.drop (i + marker.data.length))))

/-! ## Orchestrator (`chat.py`, `process_user_input`, lines 343-506) -/

/-- The LLM branch of `process_user_input` (`chat.py`, lines 390-504): the
user turn is appended, then a temporary assistant turn whose content is
overwritten in place with the outcome of the external call — the final
response text, the extracted edit proposal (marking the turn `has_edit`),
or an error message when the call raised. The external call's outcome is
passed in as `llm_result`. -/
def llmCycle (s : AppState) (user_input : String)
    (llm_result : Except String String) : AppState :=
  let s1 := { s with chat_history := s.chat_history ++ [Turn.mk "user" user_input false] }
  match llm_result with
  | Except.error e =>
    { s1 with chat_history := s1.chat_history ++
        [Turn.mk "assistant" ("Error generating response: " ++ e) false] }
  | Except.ok response_text =>
    if startsWithS response_text marker then
      let content_start := (pyFindIdx marker.data response_text.data).getD 0
        + marker.data.length
      let new_content := String.mk (stripChars (response_text.data.drop content_start))
      { s1 with
        pending_edit := some new_content,
        chat_history := s1.chat_history ++ [Turn.mk "assistant" response_text true] }
    else
      { s1 with chat_history := s1.chat_history ++ [Turn.mk "assistant" response_text false] }

/-- `ChatInterface.process_user_input` (`chat.py`, lines 343-506).
`has_handler` models `self.on_research_request` being configured;
`research_result` the outcome of calling it (`Except.error` for a raised
exception); `llm_result` the outcome of `generate_response`. An input
starting with `"/research "` whose stripped query is non-empty is routed to
the handler when one is configured (clearing any pending edit first);
otherwise the LLM branch runs. -/
def process_user_input (s : AppState) (user_input : String) (has_handler : Bool)
    (research_result : Except String String)
    (llm_result : Except String String) : AppState :=
  if startsWithS user_input "/research " then
    let research_query := stripS (dropS user_input 10)
    if has_handler = true ∧ research_query ≠ "" then
      let s1 := { s with pending_edit := none }
      let s2 := { s1 with chat_history := s1.chat_history ++
        [Turn.mk "user" ("Research: " ++ research_query) false] }
      let result_content := match research_result with
        | Except.ok r => r
        | Except.error e => "Error during research: " ++ e
      { s2 with chat_history := s2.chat_history ++
        [Turn.mk "assistant" result_content false] }
    else llmCycle s user_input llm_result
  else llmCycle s user_input llm_result

/-! ## Research-result append (`main.py`, `handle_research_request`) -/

/-- The document mutation performed by `main.handle_research_request` on a
successful webhook response with non-empty content (`main.py`, lines
137-146): append the research results under a heading. No history push and
no `on_content_change` call on this path. -/
def appendResearchResults (s : AppState) (research_content : String) : AppState :=
  if s.canvas_registered ∧ research_content ≠ "" then
    { s with markdown_content := s.markdown_content ++
        "\n\n## Research Results\n\n" ++ research_content }
  else s

/-! ## Operation alphabet, for stating state invariants -/

/-- Every operation of the model that can touch the session state. -/
inductive Op where
  | setContentOp (content : String) (save_history : Bool)
  | undoOp
  | applyOp
  | cancelOp
  | newDocOp
  | loadOp (content : String)
  | editorOp (content : String)
  | researchOp (content : String)
  | inputOp (user_input : String) (has_handler : Bool)
      (research_result : Except String String) (llm_result : Except String String)

/-- Interpret one operation on the session state. -/
def step (s : AppState) : Op → AppState
  | Op.setContentOp c b => set_content s c b
  | Op.undoOp => undoLastChange s
  | Op.applyOp => applyEdit s
  | Op.cancelOp => cancelEdit s
  | Op.newDocOp => newDocument s
  | Op.loadOp c => loadDocument s c
  | Op.editorOp c => editorUpdate s c
  | Op.researchOp c => appendResearchResults s c
  | Op.inputOp u hh rr lr => process_user_input s u hh rr lr

/-- Run a sequence of operations. -/
def run (s : AppState) : List Op → AppState
  | [] => s
  | op :: ops => run (step s op) ops

/-- The initial session state established by `main.main` together with the
component constructors: empty document, empty history, empty chat (the
configuration turn aside, which we omit as it is the only initial turn and
plays no role in the claims), no pending edit, canvas registered. -/
def initialState : AppState :=
  ⟨"", [], [], none, true, []⟩

/-! ## Helper lemmas about the undo history -/

theorem truncHistory_length_le (l : List String) : (truncHistory l).length ≤ 10 := by
  unfold truncHistory
  split
  · next hlen => simp only [List.length_drop]; omega
  · next hlen => omega

theorem mem_of_mem_truncHistory {x : String} {l : List String}
    (hx : x ∈ truncHistory l) : x ∈ l := by
  unfold truncHistory at hx
  split at hx
  · exact List.mem_of_mem_drop hx
  · exact hx

theorem truncHistory_getLast? (l : List String) :
    (truncHistory l).getLast? = l.getLast? := by
  unfold truncHistory
  split
  · next hlen =>
    rw [List.getLast?_drop, if_neg (by omega)]
  · rfl

theorem truncHistory_concat (h : List String) (c : String) :
    ∃ m, m ≤ h.length ∧ (0 < h.length → m < h.length) ∧
      truncHistory (h ++ [c]) = h.drop m ++ [c] := by
  unfold truncHistory
  split
  · next hlen =>
    rw [List.length_append, List.length_singleton] at hlen
    refine ⟨h.length + 1 - 10, by omega, by omega, ?_⟩
    rw [List.length_append, List.length_singleton,
      List.drop_append_of_le_length (by omega)]
  · exact ⟨0, Nat.zero_le _, fun h0 => h0, by simp⟩

theorem pushHistory_eq_trunc {h : List String} {c : String} (hc : ¬ c = "")
    (hnd : h = [] ∨ ¬ h.getLast? = some c) :
    pushHistory h c = truncHistory (h ++ [c]) := by
  unfold pushHistory
  rw [if_neg hc, if_pos hnd]

theorem pushHistory_length_le {h : List String} (c : String) (hle : h.length ≤ 10) :
    (pushHistory h c).length ≤ 10 := by
  unfold pushHistory
  split
  · exact hle
  split
  · exact truncHistory_length_le _
  · exact hle

theorem mem_pushHistory {x : String} {h : List String} {c : String}
    (hx : x ∈ pushHistory h c) : x ∈ h ∨ x = c := by
  unfold pushHistory at hx
  split at hx
  · exact Or.inl hx
  split at hx
  · rcases List.mem_append.mp (mem_of_mem_truncHistory hx) with h1 | h2
    · exact Or.inl h1
    · simp only [List.mem_singleton] at h2
      exact Or.inr h2
  · exact Or.inl hx

theorem pushHistory_getLast {h : List String} {c : String} (hc : ¬ c = "") :
    (pushHistory h c).getLast? = some c := by
  unfold pushHistory
  rw [if_neg hc]
  split
  · rw [truncHistory_getLast?]
    exact List.getLast?_concat _
  · next hcond =>
    push_neg at hcond
    exact hcond.2

theorem pushHistory_pop {h : List String} {c : String} (hc : ¬ c = "")
    (hne : h ≠ []) (hnd : ¬ h.getLast? = some c) :
    (pushHistory h c).getLast? = some c ∧
    ((pushHistory h c).dropLast).getLast? = h.getLast? := by
  rw [pushHistory_eq_trunc hc (Or.inr hnd)]
  obtain ⟨m, _, hlt, heq⟩ := truncHistory_concat h c
  rw [heq]
  refine ⟨List.getLast?_concat _, ?_⟩
  rw [List.dropLast_concat, List.getLast?_drop,
    if_neg (by have := hlt (List.length_pos.mpr hne); omega)]

theorem empty_not_mem_pushHistory {h : List String} {c : String}
    (hne : "" ∉ h) : "" ∉ pushHistory h c := by
  intro hmem
  rcases mem_pushHistory hmem with hx | hx
  · exact hne hx
  · rw [← hx] at hmem
    unfold pushHistory at hmem
    rw [if_pos rfl] at hmem
    exact hne hmem


theorem applyEdit_history (s : AppState) : (applyEdit s).undo_history = s.undo_history := by
  unfold applyEdit
  split
  · cases s.pending_edit <;> rfl
  · rfl

theorem llmCycle_history (s : AppState) (u : String) (lr : Except String String) :
    (llmCycle s u lr).undo_history = s.undo_history := by
  cases lr with
  | error e => rfl
  | ok r =>
    simp only [llmCycle]
    split <;> rfl

theorem process_user_input_history (s : AppState) (u : String) (hh : Bool)
    (rr lr : Except String String) :
    (process_user_input s u hh rr lr).undo_history = s.undo_history := by
  simp only [process_user_input]
  split
  · split
    · cases rr <;> rfl
    · exact llmCycle_history _ _ _
  · exact llmCycle_history _ _ _

theorem undoLastChange_history (s : AppState) :
    (undoLastChange s).undo_history = s.undo_history ∨
    (undoLastChange s).undo_history = s.undo_history.dropLast := by
  rcases hl : s.undo_history.getLast? with _ | p <;> simp [undoLastChange, hl]

theorem editorUpdate_history (s : AppState) (c : String) :
    (editorUpdate s c).undo_history = s.undo_history ∨
    (editorUpdate s c).undo_history = pushHistory s.undo_history s.markdown_content := by
  unfold editorUpdate
  split
  · exact Or.inl rfl
  · exact Or.inr rfl

theorem researchResults_history (s : AppState) (c : String) :
    (appendResearchResults s c).undo_history = s.undo_history := by
  unfold appendResearchResults
  split
  · rfl
  · rfl

/-- Case analysis: every operation either pushes the current content to the
history, pops the most recent entry, or leaves the history unchanged. -/
theorem step_history_cases (s : AppState) (op : Op) :
    (step s op).undo_history = pushHistory s.undo_history s.markdown_content ∨
    (step s op).undo_history = s.undo_history.dropLast ∨
    (step s op).undo_history = s.undo_history := by
  cases op with
  | setContentOp c b =>
    cases b with
    | false => exact Or.inr (Or.inr rfl)
    | true => exact Or.inl rfl
  | undoOp =>
    rcases undoLastChange_history s with hc | hc
    · exact Or.inr (Or.inr hc)
    · exact Or.inr (Or.inl hc)
  | applyOp => exact Or.inr (Or.inr (applyEdit_history s))
  | cancelOp => exact Or.inr (Or.inr rfl)
  | newDocOp => exact Or.inl rfl
  | loadOp c => exact Or.inl rfl
  | editorOp c =>
    rcases editorUpdate_history s c with hc | hc
    · exact Or.inr (Or.inr hc)
    · exact Or.inl hc
  | researchOp c => exact Or.inr (Or.inr (researchResults_history s c))
  | inputOp u hh rr lr => exact Or.inr (Or.inr (process_user_input_history s u hh rr lr))

theorem run_history_length (s : AppState) (ops : List Op)
    (hle : s.undo_history.length ≤ 10) :
    (run s ops).undo_history.length ≤ 10 := by
  induction ops generalizing s with
  | nil => exact hle
  | cons op ops ih =>
    apply ih
    rcases step_history_cases s op with hc | hc | hc <;> rw [hc]
    · exact pushHistory_length_le _ hle
    · rw [List.length_dropLast]; omega
    · exact hle

theorem run_history_no_empty (s : AppState) (ops : List Op)
    (hmem : "" ∉ s.undo_history) :
    "" ∉ (run s ops).undo_history := by
  induction ops generalizing s with
  | nil => exact hmem
  | cons op ops ih =>
    apply ih
    rcases step_history_cases s op with hc | hc | hc <;> rw [hc]
    · exact empty_not_mem_pushHistory hmem
    · intro hx
      exact hmem (List.dropLast_subset _ hx)
    · exact hmem

/-! ## Claims -/

/-- C5: after every sequence of operations the undo history holds at most
10 entries; a push performed when 10 entries are stored (and not skipped by
the empty-content or duplicate guard) evicts the oldest entry and keeps the
10 most recent. -/
theorem C5_history_bounded_and_fifo :
    (∀ (s : AppState) (ops : List Op), s.undo_history.length ≤ 10 →
      (run s ops).undo_history.length ≤ 10) ∧
    (∀ (h : List String) (c : String), h.length = 10 → ¬ c = "" →
      ¬ h.getLast? = some c → pushHistory h c = h.drop 1 ++ [c]) := by
  constructor
  · exact run_history_length
  · intro h c hlen hc hnd
    have hlen2 : (h ++ [c]).length = 11 := by simp [hlen]
    rw [pushHistory_eq_trunc hc (Or.inr hnd)]
    unfold truncHistory
    rw [hlen2, if_pos (by norm_num)]
    show (h ++ [c]).drop 1 = h.drop 1 ++ [c]
    exact List.drop_append_of_le_length (by omega)

/-- Witness for C5 at concrete inputs. -/
theorem C5_history_bounded_and_fifo_witness :
    (run initialState [Op.setContentOp "a" true]).undo_history.length ≤ 10 ∧
    pushHistory ["1", "2", "3", "4", "5", "6", "7", "8", "9", "10"] "11"
      = ["1", "2", "3", "4", "5", "6", "7", "8", "9", "10"].drop 1 ++ ["11"] :=
  ⟨C5_history_bounded_and_fifo.1 initialState [Op.setContentOp "a" true] (by decide),
   C5_history_bounded_and_fifo.2 ["1", "2", "3", "4", "5", "6", "7", "8", "9", "10"]
     "11" (by decide) (by decide) (by decide)⟩

/-- C6: pushing a snapshot equal to the most recently stored history entry
leaves the undo history unchanged (duplicate suppression). -/
theorem C6_push_duplicate_noop (h : List String) (c : String)
    (hne : h ≠ []) (hl : h.getLast? = some c) : pushHistory h c = h := by
  unfold pushHistory
  split
  · rfl
  · rw [if_neg]
    simp [hne, hl]

/-- Witness for C6 at a concrete history. -/
theorem C6_push_duplicate_noop_witness :
    (["x"] : List String) ≠ [] ∧ (["x"] : List String).getLast? = some "x" ∧
    pushHistory ["x"] "x" = ["x"] :=
  ⟨by decide, by decide, C6_push_duplicate_noop ["x"] "x" (by decide) (by decide)⟩

/-- C9: the undo history never contains the empty string (an operation
sequence from a history without the empty string never introduces it), and
a history push is a no-op whenever the current content is empty, even under
`set_content` with `save_history = true`. -/
theorem C9_history_never_contains_empty :
    (∀ (s : AppState) (ops : List Op), "" ∉ s.undo_history →
      "" ∉ (run s ops).undo_history) ∧
    (∀ (s : AppState) (c : String), s.markdown_content = "" →
      (set_content s c true).undo_history = s.undo_history) := by
  constructor
  · exact run_history_no_empty
  · intro s c hc
    show pushHistory s.undo_history s.markdown_content = s.undo_history
    rw [hc]
    rfl

/-- Witness for C9 at concrete inputs. -/
theorem C9_history_never_contains_empty_witness :
    "" ∉ (run initialState
      [Op.setContentOp "a" true, Op.setContentOp "b" true]).undo_history ∧
    (set_content (AppState.mk "" ["x"] [] none true []) "y" true).undo_history = ["x"] :=
  ⟨C9_history_never_contains_empty.1 initialState _ (by decide),
   C9_history_never_contains_empty.2 (AppState.mk "" ["x"] [] none true []) "y" rfl⟩

theorem undoLastChange_of_getLast {s : AppState} {p : String}
    (hl : s.undo_history.getLast? = some p) :
    (undoLastChange s).markdown_content = p ∧
    (undoLastChange s).undo_history = s.undo_history.dropLast := by
  unfold undoLastChange
  rw [hl]
  exact ⟨rfl, rfl⟩

/-- C1 (counterexample): with content `"old"`, empty history and pending
proposal `"X"`, Apply leaves the undo history empty — the prior content is
not pushed, contrary to the claim that Apply performs a Document Store set
with `save_history = true`. -/
theorem C1_apply_counterexample :
    ¬ ((applyEdit (AppState.mk "old" [] [] (some "X") true [])).undo_history
        = (AppState.mk "old" [] [] (some "X") true []).undo_history
          ++ [(AppState.mk "old" [] [] (some "X") true []).markdown_content]) := by
  decide

/-- C1 (amended): when a proposal with content `x` is pending and the canvas
is registered, Apply sets the document content to `x`, clears the pending
proposal, appends exactly one confirmation turn, and leaves the undo history
(and the notification log) unchanged — it does not push the prior content. -/
theorem C1_apply_amended (s : AppState) (x : String)
    (hc : s.canvas_registered = true) (hp : s.pending_edit = some x) :
    (applyEdit s).markdown_content = x ∧
    (applyEdit s).pending_edit = none ∧
    (applyEdit s).chat_history = s.chat_history ++ [confirmTurn] ∧
    (applyEdit s).undo_history = s.undo_history ∧
    (applyEdit s).notifications = s.notifications := by
  simp [applyEdit, hc, hp]

/-- Witness for C1 (amended) at a concrete state. -/
theorem C1_apply_amended_witness :
    (applyEdit (AppState.mk "prior" ["h"] [] (some "X") true [])).markdown_content = "X" ∧
    (applyEdit (AppState.mk "prior" ["h"] [] (some "X") true [])).pending_edit = none ∧
    (applyEdit (AppState.mk "prior" ["h"] [] (some "X") true [])).chat_history
      = (AppState.mk "prior" ["h"] [] (some "X") true []).chat_history ++ [confirmTurn] ∧
    (applyEdit (AppState.mk "prior" ["h"] [] (some "X") true [])).undo_history
      = (AppState.mk "prior" ["h"] [] (some "X") true []).undo_history ∧
    (applyEdit (AppState.mk "prior" ["h"] [] (some "X") true [])).notifications
      = (AppState.mk "prior" ["h"] [] (some "X") true []).notifications :=
  C1_apply_amended (AppState.mk "prior" ["h"] [] (some "X") true []) "X" rfl rfl

/-- C7: Cancel on a pending proposal appends exactly one system cancellation
turn, discards the proposal, and leaves the document content and undo
history unchanged. -/
theorem C7_cancel_discards_and_appends_one_turn (s : AppState) (x : String)
    (_hp : s.pending_edit = some x) :
    (cancelEdit s).chat_history = s.chat_history ++ [cancelTurn] ∧
    cancelTurn.role = "system" ∧
    (cancelEdit s).pending_edit = none ∧
    (cancelEdit s).markdown_content = s.markdown_content ∧
    (cancelEdit s).undo_history = s.undo_history :=
  ⟨rfl, rfl, rfl, rfl, rfl⟩

/-- Witness for C7 at a concrete state. -/
theorem C7_cancel_witness :
    (cancelEdit (AppState.mk "doc" [] [] (some "P") true [])).chat_history
      = (AppState.mk "doc" [] [] (some "P") true []).chat_history ++ [cancelTurn] ∧
    cancelTurn.role = "system" ∧
    (cancelEdit (AppState.mk "doc" [] [] (some "P") true [])).pending_edit = none ∧
    (cancelEdit (AppState.mk "doc" [] [] (some "P") true [])).markdown_content = "doc" ∧
    (cancelEdit (AppState.mk "doc" [] [] (some "P") true [])).undo_history = [] :=
  C7_cancel_discards_and_appends_one_turn (AppState.mk "doc" [] [] (some "P") true []) "P" rfl

/-- C4 (counterexample): the Apply mutation changes the document content but
does not invoke the on-change notification sink, refuting "every Document
Store mutation invokes the on-change notification sink". -/
theorem C4_notification_counterexample :
    (applyEdit (AppState.mk "before" ["e"] [] (some "after") true [])).markdown_content
      ≠ (AppState.mk "before" ["e"] [] (some "after") true []).markdown_content ∧
    (applyEdit (AppState.mk "before" ["e"] [] (some "after") true [])).notifications
      = (AppState.mk "before" ["e"] [] (some "after") true []).notifications := by
  decide

/-- C4 (amended): the set-content, undo, file-load and direct-edit mutations
invoke the on-change notification sink with the new content; the
apply-proposal, research-append and New mutations leave the notification
log unchanged. -/
theorem C4_notification_amended :
    (∀ (s : AppState) (c : String) (b : Bool),
      (set_content s c b).notifications = s.notifications ++ [c]) ∧
    (∀ (s : AppState) (p : String), s.undo_history.getLast? = some p →
      (undoLastChange s).notifications = s.notifications ++ [p]) ∧
    (∀ (s : AppState) (c : String),
      (loadDocument s c).notifications = s.notifications ++ [c]) ∧
    (∀ (s : AppState) (c : String), ¬ c = s.markdown_content →
      (editorUpdate s c).notifications = s.notifications ++ [c]) ∧
    (∀ s : AppState, (applyEdit s).notifications = s.notifications) ∧
    (∀ (s : AppState) (c : String),
      (appendResearchResults s c).notifications = s.notifications) ∧
    (∀ s : AppState, (newDocument s).notifications = s.notifications) := by
  refine ⟨?_, ?_, ?_, ?_, ?_, ?_, ?_⟩
  · intro s c b
    cases b <;> rfl
  · intro s p hp
    simp [undoLastChange, hp]
  · intro s c
    rfl
  · intro s c hne
    unfold editorUpdate
    rw [if_neg hne]
    rfl
  · intro s
    unfold applyEdit
    split
    · cases s.pending_edit <;> rfl
    · rfl
  · intro s c
    unfold appendResearchResults
    split <;> rfl
  · intro s
    rfl

/-- Witness for C4 (amended) at concrete states. -/
theorem C4_notification_amended_witness :
    (undoLastChange (AppState.mk "d" ["p"] [] none true [])).notifications
      = ([] : List String) ++ ["p"] ∧
    (editorUpdate (AppState.mk "d" [] [] none true []) "e").notifications
      = ([] : List String) ++ ["e"] :=
  ⟨C4_notification_amended.2.1 (AppState.mk "d" ["p"] [] none true []) "p" (by decide),
   C4_notification_amended.2.2.2.1 (AppState.mk "d" [] [] none true []) "e" (by decide)⟩

/-- C2 (counterexample): with an initially empty document (and empty
history), `set("a"); set("b"); undo(); undo()` leaves content `"a"`, not the
original empty state — no duplicate suppression triggered; the push was
skipped by the separate empty-content guard of `_save_to_history`. -/
theorem C2_roundtrip_counterexample :
    (undoLastChange (undoLastChange (set_content
      (set_content initialState "a" true) "b" true))).markdown_content
      ≠ initialState.markdown_content := by
  decide

/-- C2 (amended): provided the document content before `set(A)` is
non-empty, `A` is non-empty, and `A` differs from that prior content (so
neither guard of `_save_to_history` skips a push), `set(A); set(B); undo();
undo()` restores the content to the state immediately before `set(A)`. -/
theorem C2_roundtrip_amended (s : AppState) (A B : String)
    (h0 : ¬ s.markdown_content = "") (hA : ¬ A = "")
    (hAne : ¬ A = s.markdown_content) :
    (undoLastChange (undoLastChange
      (set_content (set_content s A true) B true))).markdown_content
      = s.markdown_content := by
  have h1last : (pushHistory s.undo_history s.markdown_content).getLast?
      = some s.markdown_content := pushHistory_getLast h0
  have h1ne : pushHistory s.undo_history s.markdown_content ≠ [] := by
    intro hnil
    rw [hnil] at h1last
    simp at h1last
  have hnd : ¬ (pushHistory s.undo_history s.markdown_content).getLast? = some A := by
    rw [h1last]
    intro hco
    exact hAne (Option.some.inj hco).symm
  obtain ⟨hp2last, hp2pop⟩ := pushHistory_pop hA h1ne hnd
  have e2 : (set_content (set_content s A true) B true).undo_history
      = pushHistory (pushHistory s.undo_history s.markdown_content) A := rfl
  obtain ⟨u1c, u1h⟩ := undoLastChange_of_getLast
    (s := set_content (set_content s A true) B true) (by rw [e2]; exact hp2last)
  have h3l : (undoLastChange (set_content (set_content s A true) B true)).undo_history.getLast?
      = some s.markdown_content := by
    rw [u1h, e2, hp2pop, h1last]
  obtain ⟨u2c, _⟩ := undoLastChange_of_getLast h3l
  exact u2c

/-- Witness for C2 (amended) at a concrete state. -/
theorem C2_roundtrip_amended_witness :
    (undoLastChange (undoLastChange (set_content (set_content
      (AppState.mk "c0" [] [] none true []) "a" true) "b" true))).markdown_content = "c0" :=
  C2_roundtrip_amended (AppState.mk "c0" [] [] none true []) "a" "b"
    (by decide) (by decide) (by decide)

theorem occursAt_succ (pat : List Char) (h : Char) (t : List Char) (i : Nat) :
    occursAt pat (h :: t) (i + 1) ↔ occursAt pat t i := Iff.rfl

theorem pyFindIdx_none_iff (pat hay : List Char) :
    pyFindIdx pat hay = none ↔ ∀ i, ¬ occursAt pat hay i := by
  induction hay with
  | nil =>
    by_cases hm : matchesHere pat [] = true
    · simp only [pyFindIdx, if_pos hm]
      exact iff_of_false (by simp) (fun hall => hall 0 (by simpa [occursAt] using hm))
    · simp only [pyFindIdx, if_neg hm]
      refine iff_of_true trivial (fun i => ?_)
      simpa [occursAt, List.drop_nil] using hm
  | cons h t ih =>
    by_cases hm : matchesHere pat (h :: t) = true
    · simp only [pyFindIdx, if_pos hm]
      exact iff_of_false (by simp) (fun hall => hall 0 (by simpa [occursAt] using hm))
    · simp only [pyFindIdx, if_neg hm, Option.map_eq_none']
      rw [ih]
      constructor
      · intro hall i
        cases i with
        | zero => simpa [occursAt] using hm
        | succ j => rw [occursAt_succ]; exact hall j
      · intro hall j
        have hj := hall (j + 1)
        rwa [occursAt_succ] at hj

theorem pyFindIdx_some (pat hay : List Char) (i : Nat)
    (hf : pyFindIdx pat hay = some i) :
    occursAt pat hay i ∧ ∀ j, j < i → ¬ occursAt pat hay j := by
  induction hay generalizing i with
  | nil =>
    unfold pyFindIdx at hf
    split at hf
    · next hm =>
      have h0 : i = 0 := by injection hf with h; exact h.symm
      subst h0
      exact ⟨by simpa [occursAt] using hm, fun j hj => absurd hj (Nat.not_lt_zero j)⟩
    · cases hf
  | cons h t ih =>
    unfold pyFindIdx at hf
    split at hf
    · next hm =>
      have h0 : i = 0 := by injection hf with h; exact h.symm
      subst h0
      exact ⟨by simpa [occursAt] using hm, fun j hj => absurd hj (Nat.not_lt_zero j)⟩
    · next hm =>
      rw [Option.map_eq_some'] at hf
      obtain ⟨i', hfi, hii⟩ := hf
      subst hii
      obtain ⟨hocc, hmin⟩ := ih i' hfi
      refine ⟨(occursAt_succ pat h t i').mpr hocc, ?_⟩
      intro j hj
      cases j with
      | zero =>
        intro hc
        exact hm (by simpa [occursAt] using hc)
      | succ j' =>
        rw [occursAt_succ]
        exact hmin j' (by omega)

theorem pyFindIdx_first (pat hay : List Char) (i : Nat)
    (hocc : occursAt pat hay i) (hmin : ∀ j, j < i → ¬ occursAt pat hay j) :
    pyFindIdx pat hay = some i := by
  cases hf : pyFindIdx pat hay with
  | none =>
    rw [pyFindIdx_none_iff] at hf
    exact absurd hocc (hf i)
  | some j =>
    obtain ⟨hocc', hmin'⟩ := pyFindIdx_some pat hay j hf
    congr 1
    rcases Nat.lt_trichotomy j i with hlt | heq | hgt
    · exact absurd hocc' (hmin j hlt)
    · exact heq
    · exact absurd hocc (hmin' i hgt)

/-- C3: classification of an assistant response (the `render` extraction,
`chat.py` 171-182): no proposal when the marker is absent; when it occurs,
with first occurrence at index `i`, the proposal content is exactly the
text after that occurrence with surrounding whitespace stripped — mid
sentence occurrences included, later occurrences kept verbatim inside the
content (concrete conjuncts exercise the spec example, a marker-free text,
and a mid-sentence double-marker text). -/
theorem C3_classifier :
    (∀ t : String, classify t = none ↔ ∀ i, ¬ occursAt marker.data t.data i) ∧
    (∀ (t : String) (i : Nat), occursAt marker.data t.data i →
      (∀ j, j < i → ¬ occursAt marker.data t.data j) →
      classify t = some (String.mk (stripChars (t.data.drop (i + marker.data.length))))) ∧
    classify (marker ++ "\n\n# Title") = some "# Title" ∧
    classify "Hello, how can I help?" = none ∧
    classify ("Sure. " ++ marker ++ " A " ++ marker ++ " B")
      = some ("A " ++ marker ++ " B") := by
  refine ⟨?_, ?_, by decide, by decide, by decide⟩
  · intro t
    unfold classify
    cases hf : pyFindIdx marker.data t.data with
    | none =>
      rw [pyFindIdx_none_iff] at hf
      exact iff_of_true rfl hf
    | some i =>
      exact iff_of_false (by simp)
        (fun hall => hall i (pyFindIdx_some _ _ _ hf).1)
  · intro t i hocc hmin
    unfold classify
    rw [pyFindIdx_first marker.data t.data i hocc hmin]

/-- Witness for C3 at concrete texts. -/
theorem C3_classifier_witness :
    classify "Hello there" = none ∧
    classify (marker ++ " X")
      = some (String.mk (stripChars ((marker ++ " X").data.drop (0 + marker.data.length)))) :=
  ⟨by decide,
   C3_classifier.2.1 (marker ++ " X") 0 (by decide)
     (fun j hj => absurd hj (Nat.not_lt_zero j))⟩

theorem llmCycle_shape (s : AppState) (u : String) (lr : Except String String) :
    ∃ ta : Turn,
      (llmCycle s u lr).chat_history
        = s.chat_history ++ [Turn.mk "user" u false, ta] ∧
      ta.role = "assistant" ∧
      (∀ e, lr = Except.error e → ta.content = "Error generating response: " ++ e) := by
  cases lr with
  | error e =>
    refine ⟨Turn.mk "assistant" ("Error generating response: " ++ e) false, ?_, rfl, ?_⟩
    · simp [llmCycle]
    · intro e' he
      injection he with h
      rw [h]
  | ok r =>
    by_cases hm : startsWithS r marker = true
    · refine ⟨Turn.mk "assistant" r true, ?_, rfl, ?_⟩
      · simp [llmCycle, hm]
      · intro e' he
        cases he
    · refine ⟨Turn.mk "assistant" r false, ?_, rfl, ?_⟩
      · simp [llmCycle, hm]
      · intro e' he
        cases he

theorem process_user_input_eq_llm (s : AppState) (u : String) (hh : Bool)
    (rr lr : Except String String)
    (hcon : ¬ (startsWithS u "/research " = true ∧ hh = true ∧ stripS (dropS u 10) ≠ "")) :
    process_user_input s u hh rr lr = llmCycle s u lr := by
  unfold process_user_input
  split
  · next hs =>
    dsimp only
    rw [if_neg (fun hq => hcon ⟨hs, hq⟩)]
  · rfl

theorem process_user_input_eq_research (s : AppState) (u : String) (hh : Bool)
    (rr lr : Except String String)
    (hs : startsWithS u "/research " = true)
    (hq : hh = true ∧ stripS (dropS u 10) ≠ "") :
    process_user_input s u hh rr lr =
      { s with pending_edit := none,
               chat_history := s.chat_history
                 ++ [Turn.mk "user" ("Research: " ++ stripS (dropS u 10)) false,
                     Turn.mk "assistant" (match rr with
                       | Except.ok r => r
                       | Except.error e => "Error during research: " ++ e) false] } := by
  unfold process_user_input
  rw [if_pos hs]
  dsimp only
  rw [if_pos hq]
  cases rr <;> simp

/-- C8: one request/response cycle of `process_user_input` always ends with
the user turn followed by exactly one assistant turn; an exception raised by
the research handler or the external LLM call is caught and recorded as the
content of that assistant turn. -/
theorem C8_cycle_shape (s : AppState) (u : String) (hh : Bool)
    (rr lr : Except String String) :
    ∃ tu ta : Turn,
      (process_user_input s u hh rr lr).chat_history
        = s.chat_history ++ [tu, ta] ∧
      tu.role = "user" ∧ ta.role = "assistant" ∧
      (startsWithS u "/research " = true → hh = true → stripS (dropS u 10) ≠ "" →
        ∀ e, rr = Except.error e → ta.content = "Error during research: " ++ e) ∧
      ((startsWithS u "/research " = true → ¬ (hh = true ∧ stripS (dropS u 10) ≠ "")) →
        ∀ e, lr = Except.error e → ta.content = "Error generating response: " ++ e) := by
  by_cases hs : startsWithS u "/research " = true
  · by_cases hq : hh = true ∧ stripS (dropS u 10) ≠ ""
    · rw [process_user_input_eq_research s u hh rr lr hs hq]
      refine ⟨Turn.mk "user" ("Research: " ++ stripS (dropS u 10)) false,
        Turn.mk "assistant" (match rr with
          | Except.ok r => r
          | Except.error e => "Error during research: " ++ e) false,
        rfl, rfl, rfl, ?_, ?_⟩
      · intro _ _ _ e he
        rw [he]
      · intro hcon
        exact absurd hq (hcon hs)
    · rw [process_user_input_eq_llm s u hh rr lr (fun hco => hq hco.2)]
      obtain ⟨ta, hchat, hrole, herr⟩ := llmCycle_shape s u lr
      exact ⟨Turn.mk "user" u false, ta, hchat, rfl, hrole,
        fun _ hhh hqq => absurd ⟨hhh, hqq⟩ hq, fun _ => herr⟩
  · rw [process_user_input_eq_llm s u hh rr lr (fun hco => hs hco.1)]
    obtain ⟨ta, hchat, hrole, herr⟩ := llmCycle_shape s u lr
    exact ⟨Turn.mk "user" u false, ta, hchat, rfl, hrole,
      fun hss => absurd hss hs, fun _ => herr⟩

/-- Witness for C8 with a research-handler exception at a concrete input. -/
theorem C8_cycle_shape_witness :
    ∃ tu ta : Turn,
      (process_user_input initialState "/research x" true (Except.error "boom")
        (Except.ok "fine")).chat_history
        = initialState.chat_history ++ [tu, ta] ∧
      tu.role = "user" ∧ ta.role = "assistant" ∧
      ta.content = "Error during research: boom" := by
  obtain ⟨tu, ta, h1, h2, h3, h4, _⟩ :=
    C8_cycle_shape initialState "/research x" true (Except.error "boom") (Except.ok "fine")
  exact ⟨tu, ta, h1, h2, h3, h4 (by decide) rfl (by decide) "boom" rfl⟩

/-- C10: a pending proposal is silently consumed by a routed research
command: processing clears it, appends a user and an assistant turn (no
system cancellation turn), and leaves the document content and undo history
unchanged. -/
theorem C10_research_clears_pending (s : AppState) (p u : String)
    (rr lr : Except String String)
    (_hp : s.pending_edit = some p)
    (hs : startsWithS u "/research " = true)
    (hq : stripS (dropS u 10) ≠ "") :
    (process_user_input s u true rr lr).pending_edit = none ∧
    (process_user_input s u true rr lr).markdown_content = s.markdown_content ∧
    (process_user_input s u true rr lr).undo_history = s.undo_history ∧
    ∃ ta : Turn,
      (process_user_input s u true rr lr).chat_history
        = s.chat_history
          ++ [Turn.mk "user" ("Research: " ++ stripS (dropS u 10)) false, ta] ∧
      ta.role = "assistant" ∧ ¬ ta.role = "system" := by
  rw [process_user_input_eq_research s u true rr lr hs ⟨rfl, hq⟩]
  exact ⟨rfl, rfl, rfl,
    Turn.mk "assistant" (match rr with
      | Except.ok r => r
      | Except.error e => "Error during research: " ++ e) false,
    rfl, rfl, by simp⟩

/-- Witness for C10 at a concrete state and input. -/
theorem C10_research_clears_pending_witness :
    (process_user_input (AppState.mk "doc" ["h"] [] (some "P") true [])
      "/research q" true (Except.ok "r") (Except.ok "l")).pending_edit = none ∧
    (process_user_input (AppState.mk "doc" ["h"] [] (some "P") true [])
      "/research q" true (Except.ok "r") (Except.ok "l")).markdown_content = "doc" ∧
    (process_user_input (AppState.mk "doc" ["h"] [] (some "P") true [])
      "/research q" true (Except.ok "r") (Except.ok "l")).undo_history = ["h"] ∧
    ∃ ta : Turn,
      (process_user_input (AppState.mk "doc" ["h"] [] (some "P") true [])
        "/research q" true (Except.ok "r") (Except.ok "l")).chat_history
        = (AppState.mk "doc" ["h"] [] (some "P") true []).chat_history
          ++ [Turn.mk "user" ("Research: " ++ stripS (dropS "/research q" 10)) false, ta] ∧
      ta.role = "assistant" ∧ ¬ ta.role = "system" :=
  C10_research_clears_pending (AppState.mk "doc" ["h"] [] (some "P") true [])
    "P" "/research q" (Except.ok "r") (Except.ok "l") rfl (by decide) (by decide)
